import Mathlib

/-!
Shallow embedding of the `fd` style-resolution and path-rendering engine:
the `LS_COLORS` parser (`src/lscolors/mod.rs`), the per-path style
resolver and renderer (`src/main.rs`), and the `Inits` iterator adaptor
(`src/utils/mod.rs`).  Hash maps are modelled as association lists with
overwrite-on-insert; painted terminal output is modelled as a list of
(optional style, text) segments; filesystem metadata is an explicit
oracle passed to the functions that perform I/O in the source.
-/

namespace FdSpec

/-- The eight named terminal colors used by the source (`termcolor::Color`
subset actually produced by `parse_style`). -/
inductive Color
  | black | red | green | yellow | blue | magenta | cyan | white
deriving DecidableEq, Repr

/-- Text decorations, from `enum TextStyle` in `src/lscolors/mod.rs`. -/
inductive TextStyle
  | normal | bold | italic | underline
deriving DecidableEq, Repr

/-- Embedding of `struct Style(Color, TextStyle)` from `src/lscolors/mod.rs`. -/
structure Style where
  color : Color
  deco : TextStyle
deriving DecidableEq, Repr

/-- Embedding of `Color::normal` from the `StyleColor` impl. -/
def Color.normal (c : Color) : Style := ⟨c, TextStyle.normal⟩

/-- Embedding of `Color::bold` from the `StyleColor` impl. -/
def Color.bold (c : Color) : Style := ⟨c, TextStyle.bold⟩

/-- Embedding of `Color::italic` from the `StyleColor` impl. -/
def Color.italic (c : Color) : Style := ⟨c, TextStyle.italic⟩

/-- Embedding of `Color::underline` from the `StyleColor` impl. -/
def Color.underline (c : Color) : Style := ⟨c, TextStyle.underline⟩

/-- Association-list model of `HashMap<String, Style>`. -/
abbrev StyleMap := List (String × Style)

/-- Embedding of `HashMap::get`. -/
def lookupStyle (m : StyleMap) (k : String) : Option Style :=
  (m.find? (fun e => e.1 = k)).map (·.2)

/-- Embedding of `HashMap::insert`: the new binding replaces any earlier binding of
the same key. -/
def insertStyle (m : StyleMap) (k : String) (v : Style) : StyleMap :=
  (k, v) :: m.filter (fun e => e.1 ≠ k)

/-- Embedding of `struct LsColors` from `src/lscolors/mod.rs`. -/
structure LsColors where
  directory : Style
  symlink : Style
  executable : Style
  extensions : StyleMap
  filenames : StyleMap
deriving DecidableEq, Repr

/-- Embedding of `impl Default for LsColors`. -/
def defaultLsColors : LsColors :=
  { directory := Color.blue.bold
    symlink := Color.cyan.normal
    executable := Color.red.bold
    extensions := []
    filenames := [] }

/-- Helper for `splitOnChar`: accumulate the current field (reversed)
and emit it at each separator and at the end. -/
def splitOnCharAux (c : Char) : List Char → List Char → List String
  | [], acc => [String.mk acc.reverse]
  | x :: xs, acc =>
    if x = c then String.mk acc.reverse :: splitOnCharAux c xs []
    else splitOnCharAux c xs (x :: acc)

/-- Rust `str::split(c)` for a single separator char: `""` yields
`[""]`, adjacent separators yield empty fields. -/
def splitOnChar (c : Char) (s : String) : List String :=
  splitOnCharAux c s.toList []

/-- Rust `str::trim`: drop whitespace from both ends. -/
def strTrim (s : String) : String :=
  String.mk (((s.toList.dropWhile Char.isWhitespace).reverse.dropWhile
    Char.isWhitespace).reverse)

/-- Rust `str::starts_with` for a string pattern. -/
def strStartsWith (s pat : String) : Bool :=
  pat.toList.isPrefixOf s.toList

/-- Rust `String::split_off(n)`'s returned tail, for an `n`-byte ASCII
head: the string without its first `n` characters. -/
def strDrop (s : String) (n : Nat) : String :=
  String.mk (s.toList.drop n)

/-- Embedding of `Vec<String>::join(sep)`. -/
def strJoin (sep : String) : List String → String
  | [] => ""
  | [x] => x
  | x :: y :: xs => x ++ sep ++ strJoin sep (y :: xs)

/-- Embedding of `LS_CODES` from `src/lscolors/mod.rs` lines 19-23. -/
def LS_CODES : List String :=
  ["no", "no", "fi", "rs", "di", "ln", "ln", "ln", "or", "mi", "pi", "pi",
   "so", "bd", "bd", "cd", "cd", "do", "ex", "lc", "lc", "rc", "rc", "ec",
   "ec", "su", "su", "sg", "sg", "st", "ow", "ow", "tw", "tw", "ca", "mh",
   "cl"]

/-- Embedding of `LsColors::parse_decoration`: parse a single text-decoration token.
The Rust function returns a constructor `fn(Color) -> Style`; we return
the `TextStyle` it would attach. -/
def parseDecoration (code : String) : Option TextStyle :=
  if code = "0" ∨ code = "00" then some TextStyle.normal
  else if code = "1" ∨ code = "01" then some TextStyle.bold
  else if code = "3" ∨ code = "03" then some TextStyle.italic
  else if code = "4" ∨ code = "04" then some TextStyle.underline
  else none

/-- The color match in `parse_style` (lines 93-106): the `match color_s`
arms in order, `_ => Color::White`, and `Color::White` when `c1` is
`None`. -/
def colorFromToken : Option String → Color
  | none => Color.white
  | some s =>
    if s = "30" then Color.black
    else if s = "31" then Color.red
    else if s = "32" then Color.green
    else if s = "33" then Color.yellow
    else if s = "34" then Color.blue
    else if s = "35" then Color.magenta
    else if s = "36" then Color.cyan
    else Color.white

/-- Embedding of `code.split(';').flat_map(parse_decoration).next()`:
the first decoration token found anywhere in the token sequence. -/
def findDecoration (tokens : List String) : Option TextStyle :=
  (tokens.filterMap parseDecoration).head?

/-- The tail of `parse_style` once `c1`/`c2` are fixed (lines 81-117):
reject the 256-color introducer `38;5`, otherwise build the style from
the color token and the decoration (scanning all tokens when no leading
decoration was consumed). -/
def finishStyle (dec0 : Option TextStyle) (allTokens : List String)
    (c1 c2 : Option String) : Option Style :=
  if c1 = some "38" ∧ c2 = some "5" then none
  else some ⟨colorFromToken c1, (dec0 <|> findDecoration allTokens).getD TextStyle.normal⟩

/-- Embedding of `LsColors::parse_style` on the `';'`-token list: if the first token
is a decoration, the color token is the second token, else the first
token itself is the color token.  The `[]` case mirrors the unreachable
`else` branch for an empty iterator (line 119). -/
def parseStyleTokens : List String → Option Style
  | [] => none
  | first :: rest =>
    match parseDecoration first with
    | some d => finishStyle (some d) (first :: rest) rest.head? (rest.drop 1).head?
    | none => finishStyle none (first :: rest) (some first) rest.head?

/-- Embedding of `LsColors::parse_style`: split the code on `';'` and process the
token list. -/
def parseStyle (code : String) : Option Style :=
  parseStyleTokens (splitOnChar ';' code)

/-- Embedding of `LsColors::add_entry` after the input has been split on `'='`
(lines 126-157): require exactly two parts, parse the style code, then
dispatch the pattern (known LS code / `*.`-extension / `*`-filename /
discard). -/
def addEntryParts (t : LsColors) : List String → LsColors
  | pat :: styleCode :: rest =>
    if rest ≠ [] then t
    else
      match parseStyle styleCode with
      | none => t
      | some style =>
        if LS_CODES.contains pat then
          if pat = "di" then { t with directory := style }
          else if pat = "ln" then { t with symlink := style }
          else if pat = "ex" then { t with executable := style }
          else t
        else if strStartsWith pat "*." then
          { t with extensions := insertStyle t.extensions (strDrop pat 2) style }
        else if strStartsWith pat "*" then
          { t with filenames := insertStyle t.filenames (strDrop pat 1) style }
        else t
  | _ => t

/-- Embedding of `LsColors::add_entry`: trim the input, split on `'='`, dispatch. -/
def addEntry (t : LsColors) (input : String) : LsColors :=
  addEntryParts t (splitOnChar '=' (strTrim input))

/-- Embedding of `LsColors::from_string`: fold `add_entry` over the `':'`-separated
entries, starting from the default table. -/
def fromString (input : String) : LsColors :=
  (splitOnChar ':' input).foldl addEntry defaultLsColors

/-- The metadata facts the renderer reads: `file_type().is_symlink()`,
`is_dir()`, and `permissions().mode()`. -/
structure Metadata where
  isSymlinkFileType : Bool
  isDirFileType : Bool
  mode : Nat
deriving DecidableEq, Repr

/-- Filesystem oracle: `Path::metadata` (follows symlinks) and
`Path::symlink_metadata`; `none` models an `Err` result. -/
structure Filesystem where
  metadata : String → Option Metadata
  symlinkMetadata : String → Option Metadata

/-- Embedding of `is_executable` from `src/main.rs` (unix variant):
`p.metadata().ok().map(|f| f.permissions().mode() & 0o111 != 0).unwrap_or(false)`. -/
def isExecutable (fs : Filesystem) (p : String) : Bool :=
  ((fs.metadata p).map (fun m => decide (Nat.land m.mode 73 ≠ 0))).getD false

/-- Embedding of `is_symlink` from `src/main.rs`:
`path.symlink_metadata().map(|md| md.file_type().is_symlink()).unwrap_or(false)`. -/
def isSymlink (fs : Filesystem) (p : String) : Bool :=
  ((fs.symlinkMetadata p).map (·.isSymlinkFileType)).getD false

/-- Model of `Path::is_dir` from the Rust standard library:
`metadata().map(|m| m.is_dir()).unwrap_or(false)`. -/
def isDir (fs : Filesystem) (p : String) : Bool :=
  ((fs.metadata p).map (·.isDirFileType)).getD false

/-- Model of `Path::file_name`: the last normal component of the path
(empty and `.` segments are skipped; a trailing `..` has no file name). -/
def fileName (p : String) : Option String :=
  match ((splitOnChar '/' p).filter (fun s => s ≠ "" ∧ s ≠ ".")).getLast? with
  | none => none
  | some s => if s = ".." then none else some s

/-- Model of `Path::extension`: the part of the file name after the
last `.`, with no extension for names without a dot or for hidden
files whose only dot is leading. -/
def extensionOf (p : String) : Option String :=
  (fileName p).bind fun n =>
    match splitOnChar '.' n with
    | [] => none
    | [_] => none
    | first :: rest => if first = "" ∧ rest.length = 1 then none else rest.getLast?

/-- Embedding of `get_path_style` from `src/main.rs` lines 194-214: symlink, then
directory, then executable, then the exact-filename map, then the
extension map.  The source's `unwrap_or_default()` (the plain unstyled
default) is modelled by `none`. -/
def getPathStyle (t : LsColors) (fs : Filesystem) (p : String) : Option Style :=
  if isSymlink fs p then some t.symlink
  else if isDir fs p then some t.directory
  else if isExecutable fs p then some t.executable
  else
    ((fileName p).bind fun n => lookupStyle t.filenames n) <|>
      ((extensionOf p).bind fun e => lookupStyle t.extensions e)

/-- Embedding of `MAIN_SEPARATOR` from `src/main.rs` (unix). -/
def MAIN_SEPARATOR : String := "/"

/-- State-passing embedding of the `Inits` iterator
(`src/utils/mod.rs`): each `next` pushes the underlying element onto
`items` and yields a clone of the accumulated vector. -/
def initsAux (items : List α) : List α → List (List α)
  | [] => []
  | x :: xs => (items ++ [x]) :: initsAux (items ++ [x]) xs

/-- Embedding of `iter.inits()`: the adaptor started with an empty `items` vector. -/
def inits (l : List α) : List (List α) := initsAux [] l

/-- A painted piece of terminal output: the style applied (none =
unstyled / default style) and the text. -/
abbrev Segment := Option Style × String

/-- Embedding of `display_styled_entry` from `src/main.rs` lines 115-149, on the
already-stringified component list, with painted output modelled as
segments: build each component's cumulative sub-path with `inits` and a
`MAIN_SEPARATOR` join, resolve each component's style from its
cumulative path, and join the painted components with the separator
painted in the directory's style. -/
def displayStyledEntry (t : LsColors) (fs : Filesystem)
    (componentStrs : List String) : List Segment :=
  let componentPaths := (inits componentStrs).map
    (fun ss => strJoin MAIN_SEPARATOR ss)
  let styledStrs := (componentPaths.map (fun p => getPathStyle t fs p)).zip componentStrs
  List.intersperse (some t.directory, MAIN_SEPARATOR)
    (styledStrs.map (fun e => (e.1, e.2)))

example : parseStyle "31" = some (Color.red.normal) := by decide
example : parseStyle "00;31" = some (Color.red.normal) := by decide
example : parseStyle "03;34" = some (Color.blue.italic) := by decide
example : parseStyle "01;36" = some (Color.cyan.bold) := by decide
example : parseStyle "34;03" = some (Color.blue.italic) := by decide
example : parseStyle "36;01" = some (Color.cyan.bold) := by decide
example : parseStyle "31;00" = some (Color.red.normal) := by decide
example : parseStyle "38;5" = none := by decide
example : parseStyle "38;5;115" = none := by decide
example : parseStyle "01;38;5;119" = none := by decide
example : parseStyle "" = some (Color.white.normal) := by decide
example : fromString "" = defaultLsColors := by decide
example : addEntry defaultLsColors "di=" ≠ defaultLsColors := by decide
example :
    (fromString "rs=0:di=03;34:ln=01;36:*.foo=01;35:*README=33").directory
      = Color.blue.italic := by decide
example :
    (fromString "rs=0:di=03;34:ln=01;36:*.foo=01;35:*README=33").symlink
      = Color.cyan.bold := by decide
example :
    lookupStyle (fromString "rs=0:di=03;34:ln=01;36:*.foo=01;35:*README=33").extensions "foo"
      = some (Color.magenta.bold) := by decide
example :
    lookupStyle (fromString "rs=0:di=03;34:ln=01;36:*.foo=01;35:*README=33").filenames "README"
      = some (Color.yellow.normal) := by decide
example : fileName "a/b.txt" = some "b.txt" := by decide
example : extensionOf "a/b.txt" = some "txt" := by decide
example : extensionOf "a/.gitignore" = none := by decide

/-- A filesystem oracle on which every metadata lookup fails. -/
def failingFs : Filesystem := ⟨fun _ => none, fun _ => none⟩

/-- A filesystem oracle whose only entry is a symlink at `x/a.txt`. -/
def symlinkFs : Filesystem :=
  ⟨fun _ => none,
   fun p => if p = "x/a.txt" then some ⟨true, false, 0⟩ else none⟩

lemma initsAux_length (items l : List α) :
    (initsAux items l).length = l.length := by
  induction l generalizing items with
  | nil => rfl
  | cons x xs ih => simp [initsAux, ih]

lemma inits_length (l : List α) : (inits l).length = l.length :=
  initsAux_length [] l

lemma initsAux_get? (items l : List α) (i : Nat) (h : i < l.length) :
    (initsAux items l).get? i = some (items ++ l.take (i + 1)) := by
  induction l generalizing items i with
  | nil => simp at h
  | cons x xs ih =>
    cases i with
    | zero => simp [initsAux]
    | succ j =>
      have hj : j < xs.length := by simpa using h
      simp only [initsAux, List.get?_cons_succ]
      rw [ih (items ++ [x]) j hj]
      simp [List.take_succ_cons]

lemma inits_get? (l : List α) (i : Nat) (h : i < l.length) :
    (inits l).get? i = some (l.take (i + 1)) := by
  simpa using initsAux_get? [] l i h

lemma intersperse_get?_odd (sep : α) :
    ∀ (l : List α) (i : Nat), i + 1 < l.length →
      (List.intersperse sep l).get? (2 * i + 1) = some sep := by
  intro l
  induction l with
  | nil => intro i h; simp at h
  | cons a t ih =>
    intro i h
    cases t with
    | nil => simp at h
    | cons b u =>
      cases i with
      | zero => rfl
      | succ j =>
        have hj : j + 1 < (b :: u).length := by
          simp only [List.length_cons] at h ⊢; omega
        have harith : 2 * (j + 1) + 1 = (2 * j + 1) + 1 + 1 := by ring
        rw [harith]
        show (a :: sep :: List.intersperse sep (b :: u)).get? ((2 * j + 1) + 1 + 1)
          = some sep
        rw [List.get?_cons_succ, List.get?_cons_succ]
        exact ih j hj

/-- C10: the `inits` adaptor yields exactly as many elements as the
underlying iterator, and its `i`-th element is the vector of the first
`i + 1` underlying elements in order. -/
theorem inits_yields_prefixes {α : Type} (l : List α) :
    (inits l).length = l.length ∧
      ∀ i : Nat, i < l.length → (inits l).get? i = some (l.take (i + 1)) := by
  exact ⟨inits_length l, fun i h => inits_get? l i h⟩

/-- Witness for C10 at the concrete list `[10, 20, 30]` and index 1. -/
theorem inits_yields_prefixes_witness :
    (inits [10, 20, 30]).get? 1 = some [10, 20] :=
  (inits_yields_prefixes [10, 20, 30]).2 1 (by decide)

/-- C9: when both metadata lookups fail for a path, all three predicates
used for style resolution are false: not a directory, not a symlink,
not executable. -/
theorem metadata_failure_predicates_false (fs : Filesystem) (p : String)
    (h1 : fs.metadata p = none) (h2 : fs.symlinkMetadata p = none) :
    isDir fs p = false ∧ isSymlink fs p = false ∧ isExecutable fs p = false := by
  simp [isDir, isSymlink, isExecutable, h1, h2]

/-- Witness for C9 on the all-failing filesystem oracle. -/
theorem metadata_failure_predicates_false_witness :
    isDir failingFs "p" = false ∧ isSymlink failingFs "p" = false ∧
      isExecutable failingFs "p" = false :=
  metadata_failure_predicates_false failingFs "p" rfl rfl

/-- C8: in the rendered output of `display_styled_entry`, every
separator inserted between adjacent components is the path separator
painted with the directory's style, for every style table, filesystem
state, and component list. -/
theorem separator_painted_with_directory_style (t : LsColors) (fs : Filesystem)
    (comps : List String) (i : Nat) (h : i + 1 < comps.length) :
    (displayStyledEntry t fs comps).get? (2 * i + 1)
      = some (some t.directory, MAIN_SEPARATOR) := by
  simp only [displayStyledEntry]
  apply intersperse_get?_odd
  simp only [List.length_map, List.length_zip, inits_length, Nat.min_self]
  exact h

/-- Witness for C8 on a two-component path over the all-failing
filesystem oracle. -/
theorem separator_painted_with_directory_style_witness :
    (displayStyledEntry defaultLsColors failingFs ["a", "b"]).get? 1
      = some (some defaultLsColors.directory, MAIN_SEPARATOR) :=
  separator_painted_with_directory_style defaultLsColors failingFs ["a", "b"] 0
    (by decide)

/-- C1: style resolution follows the fixed precedence: symlink, then
directory, then executable, then the exact-filename map, then the
extension map, and otherwise no style; in particular a symlink with a
matching extension entry resolves to the symlink style. -/
theorem getPathStyle_precedence (t : LsColors) (fs : Filesystem) (p : String) :
    (isSymlink fs p = true → getPathStyle t fs p = some t.symlink) ∧
    (isSymlink fs p = false → isDir fs p = true →
      getPathStyle t fs p = some t.directory) ∧
    (isSymlink fs p = false → isDir fs p = false → isExecutable fs p = true →
      getPathStyle t fs p = some t.executable) ∧
    (isSymlink fs p = false → isDir fs p = false → isExecutable fs p = false →
      ∀ n st, fileName p = some n → lookupStyle t.filenames n = some st →
        getPathStyle t fs p = some st) ∧
    (isSymlink fs p = false → isDir fs p = false → isExecutable fs p = false →
      ((fileName p).bind fun n => lookupStyle t.filenames n) = none →
      ∀ e st, extensionOf p = some e → lookupStyle t.extensions e = some st →
        getPathStyle t fs p = some st) ∧
    (isSymlink fs p = false → isDir fs p = false → isExecutable fs p = false →
      ((fileName p).bind fun n => lookupStyle t.filenames n) = none →
      ((extensionOf p).bind fun e => lookupStyle t.extensions e) = none →
      getPathStyle t fs p = none) ∧
    (isSymlink fs p = true → ∀ e st, extensionOf p = some e →
      lookupStyle t.extensions e = some st → getPathStyle t fs p = some t.symlink) := by
  refine ⟨fun h1 => by simp [getPathStyle, h1],
          fun h1 h2 => by simp [getPathStyle, h1, h2],
          fun h1 h2 h3 => by simp [getPathStyle, h1, h2, h3],
          fun h1 h2 h3 n st hn hst => by simp [getPathStyle, h1, h2, h3, hn, hst],
          fun h1 h2 h3 hfn e st he hst => by
            simp [getPathStyle, h1, h2, h3, hfn, he, hst],
          fun h1 h2 h3 hfn hext => by simp [getPathStyle, h1, h2, h3, hfn, hext],
          fun h1 e st he hst => by simp [getPathStyle, h1]⟩

/-- Witness for C1: a path that is simultaneously a symlink and has a
matching extension entry resolves to the symlink style. -/
theorem getPathStyle_precedence_witness :
    getPathStyle { defaultLsColors with extensions := [("txt", Color.red.normal)] }
        symlinkFs "x/a.txt"
      = some { defaultLsColors with
                extensions := [("txt", Color.red.normal)] }.symlink :=
  (getPathStyle_precedence
      { defaultLsColors with extensions := [("txt", Color.red.normal)] }
      symlinkFs "x/a.txt").2.2.2.2.2.2
    (by decide) "txt" Color.red.normal (by decide) (by decide)

lemma colorFromToken_not_listed {s : String}
    (h : s ∉ (["30", "31", "32", "33", "34", "35", "36"] : List String)) :
    colorFromToken (some s) = Color.white := by
  simp only [List.mem_cons, List.not_mem_nil, or_false, not_or] at h
  obtain ⟨h1, h2, h3, h4, h5, h6, h7⟩ := h
  simp [colorFromToken, h1, h2, h3, h4, h5, h6, h7]

lemma parseStyleTokens_38_5 (rest : List String) :
    parseStyleTokens ("38" :: "5" :: rest) = none := by
  have hd : parseDecoration "38" = none := by decide
  simp [parseStyleTokens, hd, finishStyle]

/-- C4: for every decoration token and every color token in 30-36,
parsing the two-token code in decoration-first and color-first order
yields the same style. -/
theorem parseStyle_token_order_comm (d c : String)
    (hd : d ∈ (["0", "00", "1", "01", "3", "03", "4", "04"] : List String))
    (hc : c ∈ (["30", "31", "32", "33", "34", "35", "36"] : List String)) :
    parseStyle (d ++ ";" ++ c) = parseStyle (c ++ ";" ++ d) := by
  fin_cases hd <;> fin_cases hc <;> decide

/-- Witness for C4 at the spec's example pair `00;31` / `31;00`. -/
theorem parseStyle_token_order_comm_witness :
    parseStyle ("00" ++ ";" ++ "31") = parseStyle ("31" ++ ";" ++ "00") :=
  parseStyle_token_order_comm "00" "31" (by decide) (by decide)

/-- Counterexample for C5: the color token `38` is not one of 30-36, yet
parsing the code `38;5` yields no style at all rather than White with
the found decoration (Normal). -/
theorem parseStyle_38_5_not_white :
    parseStyle "38;5" = none ∧
      parseStyle "38;5" ≠ some Color.white.normal := by decide

/-- C5 (amended): every color token outside 30-36 resolves to White with
whatever decoration the code contains, and an absent color token also
defaults to White - except that the token `38` immediately followed by
the token `5` (the 256-color introducer) yields no style. -/
theorem unknown_color_resolves_white :
    (∀ (c : String) (rest : List String),
      parseDecoration c = none →
      c ∉ (["30", "31", "32", "33", "34", "35", "36"] : List String) →
      ¬(c = "38" ∧ rest.head? = some "5") →
      parseStyleTokens (c :: rest)
        = some ⟨Color.white, (findDecoration rest).getD TextStyle.normal⟩) ∧
    (∀ (d : String) (td : TextStyle) (c : String) (rest : List String),
      parseDecoration d = some td →
      c ∉ (["30", "31", "32", "33", "34", "35", "36"] : List String) →
      ¬(c = "38" ∧ rest.head? = some "5") →
      parseStyleTokens (d :: c :: rest) = some ⟨Color.white, td⟩) ∧
    (∀ (d : String) (td : TextStyle), parseDecoration d = some td →
      parseStyleTokens [d] = some ⟨Color.white, td⟩) := by
  refine ⟨?_, ?_, ?_⟩
  · intro c rest h1 h2 h3
    have hw := colorFromToken_not_listed h2
    simp [parseStyleTokens, h1, finishStyle, h3, hw, findDecoration,
      List.filterMap_cons]
  · intro d td c rest hd h2 h3
    have hw := colorFromToken_not_listed h2
    simp [parseStyleTokens, hd, finishStyle, h3, hw]
  · intro d td hd
    simp [parseStyleTokens, hd, finishStyle, colorFromToken]

/-- Witness for C5 (amended): the unknown color token `37` after the
decoration `01` parses to White/Bold. -/
theorem unknown_color_resolves_white_witness :
    parseStyleTokens ["01", "37"] = some ⟨Color.white, TextStyle.bold⟩ :=
  unknown_color_resolves_white.2.1 "01" TextStyle.bold "37" []
    (by decide) (by decide) (by decide)

/-- C6: a code whose color position holds the 256-color introducer
(token `38` then token `5`, optionally after a leading decoration
token) parses to no style, and the containing entry leaves the style
table unchanged. -/
theorem parse_256_color_rejected :
    (∀ rest : List String, parseStyleTokens ("38" :: "5" :: rest) = none) ∧
    (∀ (d : String) (td : TextStyle) (rest : List String),
      parseDecoration d = some td →
      parseStyleTokens (d :: "38" :: "5" :: rest) = none) ∧
    (∀ code : String, (splitOnChar ';' code).head? = some "38" →
      ((splitOnChar ';' code).drop 1).head? = some "5" →
      parseStyle code = none) ∧
    (∀ (t : LsColors) (p c : String), parseStyle c = none →
      addEntryParts t [p, c] = t) := by
  refine ⟨parseStyleTokens_38_5, ?_, ?_, ?_⟩
  · intro d td rest hd
    simp [parseStyleTokens, hd, finishStyle]
  · intro code h1 h2
    unfold parseStyle
    rcases hl : splitOnChar ';' code with _ | ⟨a, rest⟩
    · rw [hl] at h1; simp at h1
    · rw [hl] at h1 h2
      simp only [List.head?_cons, Option.some.injEq] at h1
      rcases rest with _ | ⟨b, rest2⟩
      · simp at h2
      · simp only [List.drop_one, List.tail_cons, List.head?_cons,
          Option.some.injEq] at h2
        subst h1; subst h2
        exact parseStyleTokens_38_5 rest2
  · intro t p c h
    simp [addEntryParts, h]

/-- Witness for C6 at the code `38;5;115` and the entry
`["di", "38;5"]`. -/
theorem parse_256_color_rejected_witness :
    parseStyle "38;5;115" = none ∧
      addEntryParts defaultLsColors ["di", "38;5"] = defaultLsColors :=
  ⟨parse_256_color_rejected.2.2.1 "38;5;115" (by decide) (by decide),
   parse_256_color_rejected.2.2.2 defaultLsColors "di" "38;5" (by decide)⟩

lemma addEntryParts_length_ne_two (t : LsColors) (l : List String)
    (h : l.length ≠ 2) : addEntryParts t l = t := by
  match l with
  | [] => rfl
  | [x] => rfl
  | x :: y :: rest =>
    have hr : rest ≠ [] := by
      intro hrr; subst hrr; simp at h
    simp [addEntryParts, hr]

/-- Counterexample for C2: the entry `di=` has an empty code part, yet
it changes the table - the empty code parses as the White/Normal style
and overwrites the directory style. -/
theorem addEntry_empty_code_changes_table :
    addEntry defaultLsColors "di=" ≠ defaultLsColors ∧
      addEntry defaultLsColors "di="
        = { defaultLsColors with directory := Color.white.normal } := by
  decide

/-- C2 (amended): an entry is discarded unless splitting on `=` yields
exactly two parts (no `=` at all, or more than one `=`, leaves the
table unchanged); an entry with an empty pattern part is discarded at
pattern dispatch, but an entry with an empty code part is not rejected:
the empty code parses as the White/Normal style and may update the
table, as `di=` does. -/
theorem addEntry_exactly_two_parts :
    (∀ (t : LsColors) (s : String),
      (splitOnChar '=' (strTrim s)).length ≠ 2 → addEntry t s = t) ∧
    (∀ (t : LsColors) (c : String), addEntryParts t ["", c] = t) ∧
    addEntry defaultLsColors "di="
      = { defaultLsColors with directory := Color.white.normal } := by
  refine ⟨?_, ?_, by decide⟩
  · intro t s h
    exact addEntryParts_length_ne_two t _ h
  · intro t c
    rcases hps : parseStyle c with _ | st
    · simp [addEntryParts, hps]
    · simp [addEntryParts, hps,
        show LS_CODES.contains "" = false by decide,
        show strStartsWith "" "*." = false by decide,
        show strStartsWith "" "*" = false by decide]

/-- Witness for C2 (amended): an entry with two `=` leaves the table
unchanged. -/
theorem addEntry_exactly_two_parts_witness :
    addEntry defaultLsColors "a=b=c" = defaultLsColors :=
  addEntry_exactly_two_parts.1 defaultLsColors "a=b=c" (by decide)

lemma strStartsWith_star_of_star_dot {pat : String}
    (h : strStartsWith pat "*." = true) : strStartsWith pat "*" = true := by
  unfold strStartsWith at h ⊢
  have h2 : ("*." : String).toList = ['*', '.'] := rfl
  have h1 : ("*" : String).toList = ['*'] := rfl
  rw [h2] at h
  rw [h1]
  cases hl : pat.toList with
  | nil => rw [hl] at h; simp [List.isPrefixOf] at h
  | cons x xs =>
    rw [hl] at h
    simp only [List.isPrefixOf, Bool.and_eq_true] at h ⊢
    simp [h.1]

/-- C3: for every entry whose code parses to a style, the pattern is
dispatched in priority order: a known LS code first (`di`, `ln`, `ex`
update their fields, every other known code is a no-op), then `*.`
patterns populate the extension map, then `*` patterns populate the
filename map, and any other pattern is discarded; a later insert with
the same key overwrites the earlier one. -/
theorem addEntry_pattern_dispatch (t : LsColors) (c : String) (st : Style)
    (hc : parseStyle c = some st) :
    (addEntryParts t ["di", c] = { t with directory := st }) ∧
    (addEntryParts t ["ln", c] = { t with symlink := st }) ∧
    (addEntryParts t ["ex", c] = { t with executable := st }) ∧
    (∀ pat, pat ∈ LS_CODES → pat ≠ "di" → pat ≠ "ln" → pat ≠ "ex" →
      addEntryParts t [pat, c] = t) ∧
    (∀ pat, pat ∉ LS_CODES → strStartsWith pat "*." = true →
      addEntryParts t [pat, c]
        = { t with extensions := insertStyle t.extensions (strDrop pat 2) st }) ∧
    (∀ pat, pat ∉ LS_CODES → strStartsWith pat "*." = false →
      strStartsWith pat "*" = true →
      addEntryParts t [pat, c]
        = { t with filenames := insertStyle t.filenames (strDrop pat 1) st }) ∧
    (∀ pat, pat ∉ LS_CODES → strStartsWith pat "*" = false →
      addEntryParts t [pat, c] = t) ∧
    (∀ (m : StyleMap) (k : String) (v1 v2 : Style),
      lookupStyle (insertStyle (insertStyle m k v1) k v2) k = some v2) := by
  refine ⟨?_, ?_, ?_, ?_, ?_, ?_, ?_, ?_⟩
  · simp [addEntryParts, hc, show ("di" : String) ∈ LS_CODES by decide]
  · simp [addEntryParts, hc, show ("ln" : String) ∈ LS_CODES by decide]
  · simp [addEntryParts, hc, show ("ex" : String) ∈ LS_CODES by decide]
  · intro pat hmem hdi hln hex
    simp [addEntryParts, hc, hmem, hdi, hln, hex]
  · intro pat hmem hsw
    simp [addEntryParts, hc, hmem, hsw]
  · intro pat hmem hswd hsw
    simp [addEntryParts, hc, hmem, hswd, hsw]
  · intro pat hmem hsw
    have hswd : strStartsWith pat "*." = false := by
      rcases hd : strStartsWith pat "*." with _ | _
      · rfl
      · rw [strStartsWith_star_of_star_dot hd] at hsw; cases hsw
    simp [addEntryParts, hc, hmem, hswd, hsw]
  · intro m k v1 v2
    simp [lookupStyle, insertStyle]

/-- Witness for C3 at the entry `["di", "31"]`. -/
theorem addEntry_pattern_dispatch_witness :
    addEntryParts defaultLsColors ["di", "31"]
      = { defaultLsColors with directory := Color.red.normal } :=
  (addEntry_pattern_dispatch defaultLsColors "31" Color.red.normal (by decide)).1

/-- C7: parsing a specification string is a total function with no
error type; the empty string yields the all-default table
(directory Blue/Bold, symlink Cyan/Normal, executable Red/Bold, empty
extension and filename maps), and an entry that does not split into
two `=`-delimited parts is silently dropped. -/
theorem fromString_total_and_empty_default :
    fromString "" = { directory := ⟨Color.blue, TextStyle.bold⟩,
                      symlink := ⟨Color.cyan, TextStyle.normal⟩,
                      executable := ⟨Color.red, TextStyle.bold⟩,
                      extensions := [], filenames := [] } ∧
    (∀ (t : LsColors) (e : String),
      (splitOnChar '=' (strTrim e)).length = 1 → addEntry t e = t) := by
  refine ⟨by decide, ?_⟩
  intro t e h
  exact addEntryParts_length_ne_two t _ (by omega)

/-- Witness for C7: the `=`-free entry `malformed` is dropped. -/
theorem fromString_total_and_empty_default_witness :
    addEntry defaultLsColors "malformed" = defaultLsColors :=
  fromString_total_and_empty_default.2 defaultLsColors "malformed" (by decide)

end FdSpec
